import Mathlib

/-!
Verification development for `mesh_to_sdf/surface_point_cloud.py`.

Shallow embedding conventions:
* 3D points and normals are triples of rationals (`Point3`); exact arithmetic
  stands in for the float32/float64 arrays of the source.  Squared Euclidean
  distances are computed in `ℚ`; the Euclidean distance a `KDTree.query`
  reports is `Real.sqrt` of that square, applied at the output boundary.
* numpy arrays become `List`s, vectorised operations become `List.map` /
  `List.zipWith`, and Python exceptions become `Except PyErr`:
  `ZeroDivisionError`, `ValueError` (this also covers the `math domain error`
  raised by `math.asin`, which is a `ValueError` in Python), `TypeError`
  (iterating or subscripting `None`), and `BadMeshException`.
* the sklearn `KDTree` is an external primitive: it is modelled as the pure
  function `knn` on the stored points (sorted by squared distance, ties by
  index), it rejects construction from an empty point set and queries with
  `k` outside `1 ≤ k ≤ n_samples`.
-/

/-- Python-level failures that the embedded code can raise. -/
inductive PyErr where
  | zeroDivisionError : PyErr
  | valueError : PyErr
  | typeError : PyErr
  | badMeshException : PyErr
deriving DecidableEq

/-- A 3D point (or normal vector) with exact rational coordinates. -/
structure Point3 where
  x : ℚ
  y : ℚ
  z : ℚ
deriving DecidableEq

instance : Inhabited Point3 := ⟨⟨0, 0, 0⟩⟩

/-- Componentwise difference of points, `a - b` in numpy. -/
def Point3.sub (a b : Point3) : Point3 := ⟨a.x - b.x, a.y - b.y, a.z - b.z⟩

/-- Dot product of two vectors (one row of the `np.einsum` contraction). -/
def Point3.dot (a b : Point3) : ℚ := a.x * b.x + a.y * b.y + a.z * b.z

/-- Squared Euclidean distance between two points. -/
def sqDist (a b : Point3) : ℚ := (Point3.sub a b).dot (Point3.sub a b)

/-- Modelled from the spec: one `Scan` record (`mesh_to_sdf/scan.py` is not
under `src/`).  Per §3 of the spec a scan holds the captured surface points
visible from its camera pose, their normals, and a visibility predicate from
arbitrary 3D points to booleans, backed by a depth-buffer comparison; the
predicate is abstracted here as an opaque-to-the-claims boolean function. -/
structure Scan where
  points : List Point3
  normals : List Point3
  isVisible : Point3 → Bool

/-- The `SurfacePointCloud` record: its points, optional index-aligned
normals, and optional list of scans.  The `mesh` field of the Python class is
only used by `get_random_surface_points`/`show`, which no claim mentions, so
it is omitted.  The `KDTree` built in `__init__` is a pure function of
`points` and is modelled by `knn` below. -/
structure SurfacePointCloud where
  points : List Point3
  normals : Option (List Point3)
  scans : Option (List Scan)

/-- Model of `SurfacePointCloud.__init__`: building the sklearn `KDTree` fails with a
`ValueError` on an empty point array (`N = 0`), which the spec's error
taxonomy calls `InvalidInput`; otherwise the object is constructed. -/
def mkSurfacePointCloud (points : List Point3) (normals : Option (List Point3))
    (scans : Option (List Scan)) : Except PyErr SurfacePointCloud :=
  if points = [] then .error .valueError
  else .ok ⟨points, normals, scans⟩

/-- Total order used to model the ordering of `KDTree.query` results:
ascending squared distance, ties broken by point index. -/
def distLE (a b : ℕ × ℚ) : Prop := a.2 < b.2 ∨ (a.2 = b.2 ∧ a.1 ≤ b.1)

instance : DecidableRel distLE := fun a b => by unfold distLE; infer_instance

instance : IsTotal (ℕ × ℚ) distLE where
  total a b := by
    rcases lt_trichotomy a.2 b.2 with h | h | h
    · exact Or.inl (Or.inl h)
    · rcases Nat.le_total a.1 b.1 with h1 | h1
      · exact Or.inl (Or.inr ⟨h, h1⟩)
      · exact Or.inr (Or.inr ⟨h.symm, h1⟩)
    · exact Or.inr (Or.inl h)

instance : IsTrans (ℕ × ℚ) distLE where
  trans a b c hab hbc := by
    rcases hab with h1 | ⟨h1, h1'⟩ <;> rcases hbc with h2 | ⟨h2, h2'⟩
    · exact Or.inl (h1.trans h2)
    · exact Or.inl (h2 ▸ h1)
    · exact Or.inl (h1 ▸ h2)
    · exact Or.inr ⟨h1.trans h2, h1'.trans h2'⟩

/-- All `(index, squared distance)` pairs of the stored points relative to a
query point, in storage order — the search space of one `KDTree.query` row. -/
def neighborPairs (pts : List Point3) (q : Point3) : List (ℕ × ℚ) :=
  (List.range pts.length).map (fun i => (i, sqDist q (pts.getD i default)))

/-- The `KDTree.query` result row for one query point: all stored points
sorted by distance (ties by index), truncated to the `k` nearest.  Pair
`(i, d2)` means stored point `i` at squared distance `d2`. -/
def knn (pts : List Point3) (q : Point3) (k : ℕ) : List (ℕ × ℚ) :=
  (List.insertionSort distLE (neighborPairs pts q)).take k

/-- The rank-0 (nearest-neighbor) Euclidean distance reported by
`kd_tree.query(query_points)` for one query point. -/
noncomputable def nearestDist (pts : List Point3) (q : Point3) : ℝ :=
  Real.sqrt (((knn pts q 1).headD (0, 0)).2)

/-- Number of "inside" votes among the `k` nearest neighbors of `q`:
`inside = np.einsum('ijk,ijk->ij', direction_to_surface, self.normals[indices]) < 0`
summed along axis 1, where `direction_to_surface = q - closest_points`. -/
def insideVotes (pts ns : List Point3) (q : Point3) (k : ℕ) : ℕ :=
  (knn pts q k).countP (fun p =>
    (Point3.dot (Point3.sub q (pts.getD p.1 default)) (ns.getD p.1 default)) < 0)

/-- One entry of the no-depth-buffer branch of `get_sdf`: the rank-0 distance,
negated when `np.sum(inside, axis=1) > sample_count * 0.5`. -/
noncomputable def normalVoteSdf (pts ns : List Point3) (q : Point3) (k : ℕ) : ℝ :=
  let d := Real.sqrt (((knn pts q k).headD (0, 0)).2)
  if ((insideVotes pts ns q k : ℚ) > (k : ℚ) * 0.5) then -d else d

/-- Model of `SurfacePointCloud.is_outside`: fold the scans, starting from `None` and
`np.logical_or`-ing each scan's `is_visible` mask in; the result is still
`None` when the scan list is empty. -/
def isOutside (scans : List Scan) (qs : List Point3) : Option (List Bool) :=
  scans.foldl
    (fun acc scan =>
      match acc with
      | none => some (qs.map (fun q => scan.isVisible q))
      | some r => some (List.zipWith (fun a b => a || b) r (qs.map (fun q => scan.isVisible q))))
    none

/-- Model of `SurfacePointCloud.get_sdf`.  Depth-buffer branch: a 1-NN query (which
sklearn rejects on an empty tree), then `distances *= -1`, then
`distances[self.is_outside(query_points)] *= -1`; iterating `self.scans`
when it is `None` raises `TypeError`, and when `is_outside` returns `None`
the numpy expression `distances[None] *= -1` re-negates every entry through
the new-axis view.  Normal-vote branch: `self.normals[indices]` raises
`TypeError` when normals are `None`, and `kd_tree.query(·, k)` requires
`1 ≤ k ≤ len(points)`. -/
noncomputable def getSdf (spc : SurfacePointCloud) (qs : List Point3)
    (useDepthBuffer : Bool) (sampleCount : ℕ) : Except PyErr (List ℝ) :=
  if useDepthBuffer then
    if spc.points = [] then .error .valueError
    else
      let dists := qs.map (fun q => nearestDist spc.points q * (-1))
      match spc.scans with
      | none => .error .typeError
      | some l =>
        match isOutside l qs with
        | none => .ok (dists.map (fun d => d * (-1)))
        | some outs => .ok (List.zipWith (fun d o => if o then d * (-1) else d) dists outs)
  else
    match spc.normals with
    | none => .error .typeError
    | some ns =>
      if 1 ≤ sampleCount ∧ sampleCount ≤ spc.points.length then
        .ok (qs.map (fun q => normalVoteSdf spc.points ns q sampleCount))
      else .error .valueError

/-- Sequential effectful map in `Except`: the loop bodies of
`get_sdf_in_batches` and `create_from_scans` run left to right and the first
raised exception aborts the whole call. -/
def exceptMapList (f : α → Except PyErr β) : List α → Except PyErr (List β)
  | [] => .ok []
  | a :: l =>
    match f a with
    | .error e => .error e
    | .ok b =>
      match exceptMapList f l with
      | .error e => .error e
      | .ok r => .ok (b :: r)

/-- Split a list into consecutive chunks of `B` elements (the slices
`query_points[i*B : min(n, (i+1)*B)]` of the batching loop); the fuel is an
upper bound on the number of chunks, sufficient whenever `B ≥ 1`. -/
def chunkAux : ℕ → ℕ → List α → List (List α)
  | 0, _, _ => []
  | _ + 1, _, [] => []
  | fuel + 1, B, a :: l => (a :: l).take B :: chunkAux fuel B ((a :: l).drop B)

/-- The batch decomposition of a query list for batch size `B`. -/
def chunks (B : ℕ) (l : List α) : List (List α) := chunkAux l.length B l

/-- Model of `SurfacePointCloud.get_sdf_in_batches`: a single `get_sdf` call when the
query fits in one batch, otherwise per-batch `get_sdf` calls whose results
are written back to consecutive slices of the output array. -/
noncomputable def getSdfInBatches (spc : SurfacePointCloud) (qs : List Point3)
    (useDepthBuffer : Bool) (sampleCount : ℕ) (batchSize : ℕ) : Except PyErr (List ℝ) :=
  if qs.length ≤ batchSize then getSdf spc qs useDepthBuffer sampleCount
  else
    match exceptMapList (fun c => getSdf spc c useDepthBuffer sampleCount)
        (chunks batchSize qs) with
    | .error e => .error e
    | .ok rs => .ok rs.flatten

/-- Python's float modulo `x % m`: the representative of `x` in `[0, m)`
when `m > 0` (the result takes the sign of the divisor). -/
noncomputable def realMod (x m : ℝ) : ℝ := x - m * ⌊x / m⌋

/-- The golden-angle increment `math.pi * (3 - math.sqrt(5))`. -/
noncomputable def goldenIncrement : ℝ := Real.pi * (3 - Real.sqrt 5)

/-- One iteration of `get_equidistant_camera_angles`: computing
`2 * i / (count - 1)` raises `ZeroDivisionError` when `count == 1`, and
`math.asin` raises a domain `ValueError` outside `[-1, 1]`; otherwise the
pair `(phi, theta)` is yielded with
`theta = asin(-1 + 2*i/(count-1))` and
`phi = ((i+1) * increment) % (2*pi)`. -/
noncomputable def camAngle (count i : ℕ) : Except PyErr (ℝ × ℝ) :=
  if (count : ℤ) - 1 = 0 then .error .zeroDivisionError
  else
    let xv : ℝ := -1 + 2 * (i : ℝ) / ((count : ℝ) - 1)
    if xv < -1 ∨ 1 < xv then .error .valueError
    else .ok (realMod (((i : ℝ) + 1) * goldenIncrement) (2 * Real.pi), Real.arcsin xv)

/-- Model of `get_equidistant_camera_angles(count)`, run to a list: the generator body
executes for `i = 0, ..., count-1` and the first exception aborts it. -/
noncomputable def camAngles (count : ℕ) : Except PyErr (List (ℝ × ℝ)) :=
  exceptMapList (camAngle count) (List.range count)

/-- Model of `create_from_scans`: one `Scan` per generated camera angle (the external
scan primitive is abstracted as a function from `(phi, theta)` to a `Scan`),
then `np.concatenate` of the scans' points — which raises `ValueError` on an
empty list of arrays — then `SurfacePointCloud.__init__`. -/
noncomputable def createFromScans (scanPrim : ℝ → ℝ → Scan) (scanCount : ℕ)
    (calculateNormals : Bool) : Except PyErr SurfacePointCloud :=
  match camAngles scanCount with
  | .error e => .error e
  | .ok angles =>
    match angles.map (fun a => scanPrim a.1 a.2) with
    | [] => .error .valueError
    | s :: rest =>
      mkSurfacePointCloud
        (((s :: rest).map Scan.points).flatten)
        (if calculateNormals then some (((s :: rest).map Scan.normals).flatten) else none)
        (some (s :: rest))

/-- Model of `sample_from_mesh`: the external `mesh.sample` primitive is abstracted by
letting the caller supply the sampled points and per-face normals; the
resulting cloud always has `scans = None`. -/
def sampleFromMesh (samplePoints : List Point3) (sampleNormals : List Point3)
    (calculateNormals : Bool) : Except PyErr SurfacePointCloud :=
  mkSurfacePointCloud samplePoints
    (if calculateNormals then some sampleNormals else none)
    none

/-- Modelled from the spec: `get_raster_points` lives in
`mesh_to_sdf/utils.py`, which is not under `src/`.  Per §4.5 it generates the
centers of an `R×R×R` regular grid covering the canonical cube `[-1,1]^3`,
flattened in row-major (C) order into an `(R³, 3)` array. -/
def rasterPoints (R : ℕ) : List Point3 :=
  (List.range (R * R * R)).map (fun n =>
    ⟨-1 + (2 * (n / (R * R)) + 1 : ℚ) / R,
     -1 + (2 * ((n / R) % R) + 1 : ℚ) / R,
     -1 + (2 * (n % R) + 1 : ℚ) / R⟩)

/-- Model of `sdf.reshape((R, R, R))`: row-major reinterpretation of the flat result
array, `voxels[i][j][k] = sdf[i*R*R + j*R + k]`. -/
def reshape3 (R : ℕ) (flat : List ℝ) : List (List (List ℝ)) :=
  (List.range R).map (fun i =>
    (List.range R).map (fun j =>
      (List.range R).map (fun k3 => flat.getD (i * R * R + j * R + k3) 0)))

/-- A row of `n` entries of the pad value `1`. -/
def onesRow (n : ℕ) : List ℝ := List.replicate n 1

/-- An `n×n` plane of the pad value `1`. -/
def onesPlane (n : ℕ) : List (List ℝ) := List.replicate n (onesRow n)

/-- One row after `np.pad(·, 1, constant_values=1)`: a `1` on each side. -/
def padRow (r : List ℝ) : List ℝ := 1 :: (r ++ [1])

/-- One plane of an `(R,R,·)` volume after padding: a full row of ones above
and below, and each original row padded on both sides. -/
def padPlane (R : ℕ) (p : List (List ℝ)) : List (List ℝ) :=
  onesRow (R + 2) :: ((p.map padRow) ++ [onesRow (R + 2)])

/-- Model of `np.pad(voxels, 1, constant_values=1)` on an `(R,R,R)`
volume: a full plane of ones in front and behind, and each plane padded. -/
def pad3 (R : ℕ) (v : List (List (List ℝ))) : List (List (List ℝ)) :=
  onesPlane (R + 2) :: ((v.map (padPlane R)) ++ [onesPlane (R + 2)])

/-- Model of `SurfacePointCloud.get_voxels`: evaluate the SDF on the raster grid in
batches (default batch size `1e6`), reshape to `(R,R,R)`, optionally validate
with the `check_voxels` heuristic — raising `BadMeshException` on rejection,
before any padding — and optionally pad.  `check_voxels` is modelled from the
spec as an abstract boolean predicate on volumes, since
`mesh_to_sdf/utils.py` is not under `src/`. -/
noncomputable def getVoxels (spc : SurfacePointCloud) (voxelResolution : ℕ)
    (useDepthBuffer : Bool) (sampleCount : ℕ) (pad checkResult : Bool)
    (checkVoxels : List (List (List ℝ)) → Bool) : Except PyErr (List (List (List ℝ))) :=
  match getSdfInBatches spc (rasterPoints voxelResolution) useDepthBuffer sampleCount 1000000 with
  | .error e => .error e
  | .ok sdf =>
    let voxels := reshape3 voxelResolution sdf
    if checkResult && !(checkVoxels voxels) then .error .badMeshException
    else .ok (if pad then pad3 voxelResolution voxels else voxels)

/-- Triple indexing into a nested-list volume with out-of-range default. -/
def idx3 (w : List (List (List ℝ))) (i j k : ℕ) : ℝ := ((w.getD i []).getD j []).getD k 0

/-- The volume `v` has shape `(n, n, n)`. -/
def IsCube (n : ℕ) (v : List (List (List ℝ))) : Prop :=
  v.length = n ∧ ∀ p ∈ v, p.length = n ∧ ∀ r ∈ p, r.length = n

/-- Per-point characterization of `get_sdf` used by the proofs: either the
call raises, or every query point is mapped independently by one function. -/
noncomputable def sdfPerPoint (spc : SurfacePointCloud) (useDepthBuffer : Bool)
    (sampleCount : ℕ) : Except PyErr (Point3 → ℝ) :=
  if useDepthBuffer then
    if spc.points = [] then .error .valueError
    else
      match spc.scans with
      | none => .error .typeError
      | some [] => .ok (fun q => nearestDist spc.points q * (-1) * (-1))
      | some (s :: rest) =>
        .ok (fun q =>
          if (s :: rest).any (fun t => t.isVisible q) then
            nearestDist spc.points q * (-1) * (-1)
          else nearestDist spc.points q * (-1))
  else
    match spc.normals with
    | none => .error .typeError
    | some ns =>
      if 1 ≤ sampleCount ∧ sampleCount ≤ spc.points.length then
        .ok (fun q => normalVoteSdf spc.points ns q sampleCount)
      else .error .valueError

lemma zipWith_map_map {α β γ δ : Type _} (f : β → γ → δ) (g : α → β) (h : α → γ)
    (l : List α) :
    List.zipWith f (l.map g) (l.map h) = l.map (fun x => f (g x) (h x)) := by
  induction l with
  | nil => rfl
  | cons a l ih => simp [ih]

lemma isOutside_loop (rest : List Scan) (qs : List Point3) (g : Point3 → Bool) :
    rest.foldl
      (fun acc scan =>
        match acc with
        | none => some (qs.map (fun q => scan.isVisible q))
        | some r => some (List.zipWith (fun a b => a || b) r (qs.map (fun q => scan.isVisible q))))
      (some (qs.map g)) =
      some (qs.map (fun q => g q || rest.any (fun t => t.isVisible q))) := by
  induction rest generalizing g with
  | nil => simp
  | cons t rest ih =>
    simp only [List.foldl_cons, zipWith_map_map]
    rw [ih]
    simp [Bool.or_assoc]

lemma isOutside_cons (s : Scan) (rest : List Scan) (qs : List Point3) :
    isOutside (s :: rest) qs =
      some (qs.map (fun q => (s :: rest).any (fun t => t.isVisible q))) := by
  unfold isOutside
  simp only [List.foldl_cons]
  rw [show (qs.map fun q => s.isVisible q) = qs.map (fun q => s.isVisible q) from rfl]
  rw [isOutside_loop rest qs (fun q => s.isVisible q)]
  simp

lemma getSdf_eq_perPoint (spc : SurfacePointCloud) (qs : List Point3)
    (useDepthBuffer : Bool) (sampleCount : ℕ) :
    getSdf spc qs useDepthBuffer sampleCount =
      Except.map (fun f => qs.map f) (sdfPerPoint spc useDepthBuffer sampleCount) := by
  unfold getSdf sdfPerPoint
  by_cases hu : useDepthBuffer = true
  · subst hu
    simp only [if_true]
    by_cases hp : spc.points = []
    · simp [hp, Except.map]
    · simp only [hp, if_false]
      match hscan : spc.scans with
      | none => simp [Except.map]
      | some [] =>
        dsimp only
        simp only [isOutside, List.foldl_nil, Except.map, List.map_map]
        rfl
      | some (s :: rest) =>
        dsimp only
        rw [isOutside_cons s rest qs]
        simp only [Except.map, zipWith_map_map, List.map_map]
  · simp only [Bool.not_eq_true] at hu
    subst hu
    simp only [Bool.false_eq_true, if_false]
    match hn : spc.normals with
    | none => simp [Except.map]
    | some ns =>
      by_cases hk : 1 ≤ sampleCount ∧ sampleCount ≤ spc.points.length
      · simp [hk, Except.map]
      · simp [hk, Except.map]

lemma exceptMapList_ok {α β : Type _} (F : α → Except PyErr β) (G : α → β) (l : List α)
    (h : ∀ a ∈ l, F a = .ok (G a)) : exceptMapList F l = .ok (l.map G) := by
  induction l with
  | nil => rfl
  | cons a l ih =>
    simp only [exceptMapList, h a (List.mem_cons_self a l),
      ih (fun b hb => h b (List.mem_cons_of_mem a hb)), List.map_cons]

lemma chunkAux_flatten {α : Type _} (fuel : ℕ) (B : ℕ) (hB : 1 ≤ B) :
    ∀ l : List α, l.length ≤ fuel → (chunkAux fuel B l).flatten = l := by
  induction fuel with
  | zero =>
    intro l hl
    have : l = [] := List.length_eq_zero.mp (Nat.le_zero.mp hl)
    subst this; rfl
  | succ fuel ih =>
    intro l hl
    match l with
    | [] => rfl
    | a :: l =>
      simp only [chunkAux, List.flatten_cons]
      rw [ih ((a :: l).drop B) ?_, List.take_append_drop]
      have h1 : (a :: l).length ≤ fuel + 1 := hl
      have h2 : ((a :: l).drop B).length = (a :: l).length - B := List.length_drop B (a :: l)
      omega

lemma chunks_flatten {α : Type _} (B : ℕ) (hB : 1 ≤ B) (l : List α) :
    (chunks B l).flatten = l :=
  chunkAux_flatten l.length B hB l (Nat.le_refl _)

lemma getSdfInBatches_eq_getSdf (spc : SurfacePointCloud) (qs : List Point3)
    (useDepthBuffer : Bool) (sampleCount : ℕ) (B : ℕ) (hB : 1 ≤ B) :
    getSdfInBatches spc qs useDepthBuffer sampleCount B =
      getSdf spc qs useDepthBuffer sampleCount := by
  unfold getSdfInBatches
  by_cases hle : qs.length ≤ B
  · simp [hle]
  · simp only [hle, if_false]
    match hf : sdfPerPoint spc useDepthBuffer sampleCount with
    | .ok f =>
      rw [exceptMapList_ok _ (fun c => c.map f) _
        (fun c _ => by rw [getSdf_eq_perPoint, hf]; rfl)]
      rw [getSdf_eq_perPoint, hf]
      simp only [Except.map]
      rw [← List.map_flatten, chunks_flatten B hB]
    | .error e =>
      have hne : qs ≠ [] := by
        intro h; subst h; exact hle (by simp)
      have hch : ∃ c rest, chunks B qs = c :: rest := by
        match qs, hne with
        | a :: l, _ => exact ⟨_, _, rfl⟩
      obtain ⟨c, rest, hc⟩ := hch
      rw [hc]
      have hone : getSdf spc c useDepthBuffer sampleCount = .error e := by
        rw [getSdf_eq_perPoint, hf]; rfl
      rw [getSdf_eq_perPoint, hf]
      simp only [exceptMapList, hone, Except.map]

lemma neighborPairs_map_snd (pts : List Point3) (q : Point3) :
    (neighborPairs pts q).map Prod.snd = pts.map (sqDist q) := by
  apply List.ext_getElem
  · simp [neighborPairs]
  · intro i h1 h2
    simp only [neighborPairs, List.getElem_map, List.getElem_range]
    rw [List.getD_eq_getElem]

lemma neighborPairs_length (pts : List Point3) (q : Point3) :
    (neighborPairs pts q).length = pts.length := by
  simp [neighborPairs]

/-- The head of a `KDTree.query` row realizes the minimum distance over the
whole point cloud. -/
lemma knn_headD_min (pts : List Point3) (q : Point3) (k : ℕ)
    (hp : pts ≠ []) (hk : 1 ≤ k) :
    ((knn pts q k).headD (0, 0)).2 ∈ pts.map (sqDist q) ∧
      ∀ e ∈ pts.map (sqDist q), ((knn pts q k).headD (0, 0)).2 ≤ e := by
  have hperm : List.Perm (List.insertionSort distLE (neighborPairs pts q)) (neighborPairs pts q) :=
    List.perm_insertionSort distLE (neighborPairs pts q)
  have hsorted : List.Sorted distLE (List.insertionSort distLE (neighborPairs pts q)) :=
    List.sorted_insertionSort distLE (neighborPairs pts q)
  have hlen : (List.insertionSort distLE (neighborPairs pts q)).length = pts.length := by
    rw [hperm.length_eq, neighborPairs_length]
  have hne : List.insertionSort distLE (neighborPairs pts q) ≠ [] := by
    intro h
    apply hp
    rw [h] at hlen
    exact List.length_eq_zero.mp hlen.symm
  obtain ⟨a, rest, hsort⟩ := List.exists_cons_of_ne_nil hne
  have hhead : (knn pts q k).headD (0, 0) = a := by
    unfold knn
    rw [hsort]
    match k, hk with
    | k + 1, _ => rfl
  rw [hhead]
  have hsorted' : List.Sorted distLE (a :: rest) := hsort ▸ hsorted
  have hperm' : List.Perm (a :: rest) (neighborPairs pts q) := hsort ▸ hperm
  constructor
  · rw [← neighborPairs_map_snd]
    exact List.mem_map_of_mem Prod.snd (hperm'.mem_iff.mp (List.mem_cons_self a rest))
  · intro e he
    rw [← neighborPairs_map_snd] at he
    obtain ⟨b, hb, hbe⟩ := List.mem_map.mp he
    have hb' : b ∈ a :: rest := hperm'.mem_iff.mpr hb
    rcases List.mem_cons.mp hb' with hba | hbr
    · subst hba; exact hbe ▸ le_refl _
    · have hrel := List.rel_of_sorted_cons hsorted' b hbr
      rcases hrel with h | ⟨h, _⟩
      · exact hbe ▸ h.le
      · exact hbe ▸ h.le

lemma votes_half (v k : ℕ) : ((v : ℚ) > (k : ℚ) * 0.5) ↔ 2 * v > k := by
  rw [gt_iff_lt, show ((k : ℚ) * 0.5 = (k : ℚ) / 2) by norm_num [mul_one_div],
    div_lt_iff₀ (by norm_num : (0 : ℚ) < 2)]
  rw [show ((v : ℚ) * 2 = ((2 * v : ℕ) : ℚ)) by push_cast; ring]
  exact Nat.cast_lt

/-- C3: `get_sdf_in_batches` returns the same array for any two batch sizes
`B1, B2 ≥ 1` — splitting the query set into batches and concatenating the
per-batch results in order does not change any result value, for every query
list, strategy flag, and neighbor count (and even the raised exception
agrees when the evaluation fails). -/
theorem claim_C3_batching_idempotence (spc : SurfacePointCloud) (qs : List Point3)
    (useDepthBuffer : Bool) (sampleCount : ℕ) (B1 B2 : ℕ)
    (hB1 : 1 ≤ B1) (hB2 : 1 ≤ B2) :
    getSdfInBatches spc qs useDepthBuffer sampleCount B1 =
      getSdfInBatches spc qs useDepthBuffer sampleCount B2 := by
  rw [getSdfInBatches_eq_getSdf spc qs useDepthBuffer sampleCount B1 hB1,
    getSdfInBatches_eq_getSdf spc qs useDepthBuffer sampleCount B2 hB2]

/-- Closed witness for C3: batch sizes 1 and 2 agree on a concrete
three-point query against a concrete two-point cloud. -/
theorem claim_C3_witness :
    getSdfInBatches ⟨[⟨0, 0, 0⟩, ⟨1, 0, 0⟩], some [⟨0, 0, 1⟩, ⟨0, 0, 1⟩], none⟩
        [⟨0, 0, 2⟩, ⟨3, 1, 0⟩, ⟨-1, -1, -1⟩] false 2 1 =
      getSdfInBatches ⟨[⟨0, 0, 0⟩, ⟨1, 0, 0⟩], some [⟨0, 0, 1⟩, ⟨0, 0, 1⟩], none⟩
        [⟨0, 0, 2⟩, ⟨3, 1, 0⟩, ⟨-1, -1, -1⟩] false 2 2 :=
  claim_C3_batching_idempotence _ _ false 2 1 2 (by decide) (by decide)

/-- C1: with `use_depth_buffer=False` and neighbor count `k`, `get_sdf`
returns per query point the distance to the single nearest surface point
(rank 0 of the k-NN result, i.e. the minimum distance over the cloud),
negated exactly when strictly more than half of the `k` nearest neighbors
vote "inside", a neighbor voting inside iff the dot product of (query point
minus neighbor) with that neighbor's normal is negative. -/
theorem claim_C1_normal_vote_sdf (spc : SurfacePointCloud) (ns : List Point3)
    (qs : List Point3) (k : ℕ) (hns : spc.normals = some ns)
    (hk1 : 1 ≤ k) (hk2 : k ≤ spc.points.length) :
    ∃ rs, getSdf spc qs false k = .ok rs ∧ rs.length = qs.length ∧
      ∀ i, i < qs.length →
        ∃ d2, d2 ∈ spc.points.map (sqDist (qs.getD i default)) ∧
          (∀ e ∈ spc.points.map (sqDist (qs.getD i default)), d2 ≤ e) ∧
          rs.getD i 0 =
            if 2 * insideVotes spc.points ns (qs.getD i default) k > k then
              -Real.sqrt d2
            else Real.sqrt d2 := by
  have hp : spc.points ≠ [] := by
    intro h
    rw [h] at hk2
    simp at hk2
    omega
  refine ⟨qs.map (fun q => normalVoteSdf spc.points ns q k), ?_, by simp, ?_⟩
  · unfold getSdf
    rw [hns]
    simp [hk1, hk2]
  · intro i hi
    have hq : (qs.map (fun q => normalVoteSdf spc.points ns q k)).getD i 0 =
        normalVoteSdf spc.points ns (qs.getD i default) k := by
      rw [List.getD_eq_getElem _ _ (by simpa using hi), List.getElem_map,
        List.getD_eq_getElem _ _ hi]
    obtain ⟨hmem, hmin⟩ := knn_headD_min spc.points (qs.getD i default) k hp hk1
    refine ⟨((knn spc.points (qs.getD i default) k).headD (0, 0)).2, hmem, hmin, ?_⟩
    rw [hq]
    unfold normalVoteSdf
    dsimp only
    simp only [votes_half]

/-- Closed witness for C1 on a concrete one-point cloud with one normal. -/
theorem claim_C1_witness :
    ∃ rs, getSdf ⟨[⟨0, 0, 0⟩], some [⟨0, 0, 1⟩], none⟩ [⟨0, 0, 2⟩] false 1 = .ok rs ∧
      rs.length = 1 ∧
      ∀ i, i < 1 →
        ∃ d2, d2 ∈ [⟨0, 0, 0⟩].map (sqDist (([⟨0, 0, 2⟩] : List Point3).getD i default)) ∧
          (∀ e ∈ [⟨0, 0, 0⟩].map (sqDist (([⟨0, 0, 2⟩] : List Point3).getD i default)), d2 ≤ e) ∧
          rs.getD i 0 =
            if 2 * insideVotes [⟨0, 0, 0⟩] [⟨0, 0, 1⟩] (([⟨0, 0, 2⟩] : List Point3).getD i default) 1 > 1
            then -Real.sqrt d2 else Real.sqrt d2 :=
  claim_C1_normal_vote_sdf ⟨[⟨0, 0, 0⟩], some [⟨0, 0, 1⟩], none⟩ [⟨0, 0, 1⟩] [⟨0, 0, 2⟩] 1
    rfl (by decide) (by decide)

/-- C2: with `use_depth_buffer=True` and a non-empty scan list, `get_sdf`
returns per query point the 1-NN distance, positive exactly when the point
is visible from at least one scan camera (a logical OR over all scans) and
negative otherwise: the negate-all-then-un-negate-outside implementation
equals the direct "distance is negative unless outside" form.  The reported
magnitude is the (nonnegative) square root of the minimum squared distance
over the cloud. -/
theorem claim_C2_depth_buffer_sign (spc : SurfacePointCloud) (l : List Scan)
    (qs : List Point3) (k : ℕ) (hs : spc.scans = some l) (hl : l ≠ [])
    (hp : spc.points ≠ []) :
    getSdf spc qs true k =
      .ok (qs.map (fun q =>
        if l.any (fun t => t.isVisible q) then nearestDist spc.points q
        else -nearestDist spc.points q)) ∧
    (∀ q : Point3, 0 ≤ nearestDist spc.points q) ∧
    (∀ q : Point3, ∃ d2, d2 ∈ spc.points.map (sqDist q) ∧
      (∀ e ∈ spc.points.map (sqDist q), d2 ≤ e) ∧
      nearestDist spc.points q = Real.sqrt d2) := by
  refine ⟨?_, fun q => Real.sqrt_nonneg _, fun q => ?_⟩
  · match l, hl with
    | s :: rest, _ =>
      unfold getSdf
      rw [hs]
      simp only [if_true, hp, if_false]
      rw [isOutside_cons s rest qs]
      simp only [zipWith_map_map]
      congr 1
      apply List.map_congr_left
      intro q _
      by_cases hv : ((s :: rest).any fun t => t.isVisible q) = true
      · rw [if_pos hv, if_pos hv]; ring
      · rw [if_neg hv, if_neg hv]; ring
  · obtain ⟨hmem, hmin⟩ := knn_headD_min spc.points q 1 hp (le_refl 1)
    exact ⟨_, hmem, hmin, rfl⟩

/-- Closed witness for C2 on a concrete cloud with one always-visible scan. -/
theorem claim_C2_witness :
    (getSdf ⟨[⟨0, 0, 0⟩], none, some [⟨[], [], fun _ => true⟩]⟩ [⟨1, 0, 0⟩] true 11 =
      .ok (([⟨1, 0, 0⟩] : List Point3).map (fun q =>
        if [(⟨[], [], fun _ => true⟩ : Scan)].any (fun t => t.isVisible q) then
          nearestDist [⟨0, 0, 0⟩] q
        else -nearestDist [⟨0, 0, 0⟩] q))) ∧
    (∀ q : Point3, 0 ≤ nearestDist [⟨0, 0, 0⟩] q) ∧
    (∀ q : Point3, ∃ d2, d2 ∈ ([⟨0, 0, 0⟩] : List Point3).map (sqDist q) ∧
      (∀ e ∈ ([⟨0, 0, 0⟩] : List Point3).map (sqDist q), d2 ≤ e) ∧
      nearestDist [⟨0, 0, 0⟩] q = Real.sqrt d2) :=
  claim_C2_depth_buffer_sign ⟨[⟨0, 0, 0⟩], none, some [⟨[], [], fun _ => true⟩]⟩
    [⟨[], [], fun _ => true⟩] [⟨1, 0, 0⟩] 11 rfl (List.cons_ne_nil _ _) (List.cons_ne_nil _ _)

/-- C8: constructing a `SurfacePointCloud` (the Spatial Index) from an empty
point set fails — the spec's `InvalidInput`, a `ValueError` from the sklearn
`KDTree` — rather than producing a usable object. -/
theorem claim_C8_empty_point_set (normals : Option (List Point3))
    (scans : Option (List Scan)) :
    mkSurfacePointCloud [] normals scans = .error .valueError := rfl

/-- C10: a point cloud built by `sample_from_mesh` has `scans = None`, so
`get_sdf` with `use_depth_buffer=True` never returns a signed-distance
array: iterating `None` in `is_outside` raises `TypeError`. -/
theorem claim_C10_depth_buffer_needs_scans (pts ns : List Point3) (cn : Bool)
    (spc : SurfacePointCloud) (qs : List Point3) (k : ℕ)
    (h : sampleFromMesh pts ns cn = .ok spc) :
    getSdf spc qs true k = .error .typeError := by
  unfold sampleFromMesh mkSurfacePointCloud at h
  by_cases hp : pts = []
  · simp [hp] at h
  · simp only [hp, if_false, Except.ok.injEq] at h
    subst h
    unfold getSdf
    simp [hp]

/-- Closed witness for C10 at a concrete one-point sample. -/
theorem claim_C10_witness :
    getSdf ⟨[⟨0, 0, 0⟩], none, none⟩ [⟨1, 1, 1⟩] true 11 = .error .typeError :=
  claim_C10_depth_buffer_needs_scans [⟨0, 0, 0⟩] [] false _ [⟨1, 1, 1⟩] 11 rfl

/-- The pair yielded for view index `i` when no exception is raised. -/
noncomputable def anglePair (c i : ℕ) : ℝ × ℝ :=
  (realMod (((i : ℝ) + 1) * goldenIncrement) (2 * Real.pi),
   Real.arcsin (-1 + 2 * (i : ℝ) / ((c : ℝ) - 1)))

lemma arcsinArg_mem_Icc (c i : ℕ) (hc : 2 ≤ c) (hi : i < c) :
    -1 + 2 * (i : ℝ) / ((c : ℝ) - 1) ∈ Set.Icc (-1 : ℝ) 1 := by
  have hpos : (0 : ℝ) < (c : ℝ) - 1 := by
    have : (2 : ℝ) ≤ (c : ℝ) := by exact_mod_cast hc
    linarith
  constructor
  · have h0 : 0 ≤ 2 * (i : ℝ) / ((c : ℝ) - 1) :=
      div_nonneg (by positivity) hpos.le
    linarith
  · have hle : (i : ℝ) ≤ (c : ℝ) - 1 := by
      have : (i : ℝ) + 1 ≤ (c : ℝ) := by exact_mod_cast hi
      linarith
    have h2 : 2 * (i : ℝ) / ((c : ℝ) - 1) ≤ 2 := by
      rw [div_le_iff₀ hpos]
      linarith
    linarith

lemma camAngle_ok (c i : ℕ) (hc : 2 ≤ c) (hi : i < c) :
    camAngle c i = .ok (anglePair c i) := by
  unfold camAngle
  have hz : ¬((c : ℤ) - 1 = 0) := by
    intro h
    have : (c : ℤ) = 1 := by omega
    omega
  rw [if_neg hz]
  obtain ⟨h1, h2⟩ := arcsinArg_mem_Icc c i hc hi
  rw [if_neg (by push_neg; exact ⟨h1, h2⟩)]
  rfl

lemma camAngles_ok (c : ℕ) (hc : 2 ≤ c) :
    camAngles c = .ok ((List.range c).map (anglePair c)) := by
  unfold camAngles
  exact exceptMapList_ok _ _ _
    (fun i hi => camAngle_ok c i hc (List.mem_range.mp hi))

lemma realMod_mem_Ico (x m : ℝ) (hm : 0 < m) :
    0 ≤ realMod x m ∧ realMod x m < m := by
  have hfr : realMod x m = m * Int.fract (x / m) := by
    unfold realMod Int.fract
    rw [mul_sub, mul_div_cancel₀ x (ne_of_gt hm)]
  constructor
  · rw [hfr]
    exact mul_nonneg hm.le (Int.fract_nonneg _)
  · rw [hfr]
    calc m * Int.fract (x / m) < m * 1 := (mul_lt_mul_left hm).mpr (Int.fract_lt_one _)
    _ = m := mul_one m

lemma anglePair_inj (c : ℕ) (hc : 2 ≤ c) (i j : ℕ) (hi : i < c) (hj : j < c)
    (h : anglePair c i = anglePair c j) : i = j := by
  have hsnd : Real.arcsin (-1 + 2 * (i : ℝ) / ((c : ℝ) - 1)) =
      Real.arcsin (-1 + 2 * (j : ℝ) / ((c : ℝ) - 1)) := congrArg Prod.snd h
  have harg := Real.injOn_arcsin (arcsinArg_mem_Icc c i hc hi)
    (arcsinArg_mem_Icc c j hc hj) hsnd
  have hpos : (0 : ℝ) < (c : ℝ) - 1 := by
    have : (2 : ℝ) ≤ (c : ℝ) := by exact_mod_cast hc
    linarith
  have h2 : 2 * (i : ℝ) / ((c : ℝ) - 1) = 2 * (j : ℝ) / ((c : ℝ) - 1) := by linarith
  have h3 : 2 * (i : ℝ) * ((c : ℝ) - 1) = 2 * (j : ℝ) * ((c : ℝ) - 1) :=
    (div_eq_div_iff (ne_of_gt hpos) (ne_of_gt hpos)).mp h2
  have hij : (i : ℝ) = (j : ℝ) := by
    have h4 := mul_right_cancel₀ (ne_of_gt hpos) h3
    linarith
  exact_mod_cast hij

/-- C4: for `count ≥ 2`, `get_equidistant_camera_angles` yields exactly
`count` pairs `(azimuth, elevation)`, all pairwise distinct, every elevation
in `[-π/2, π/2]` and every azimuth in `[0, 2π)`, with
`elevation = arcsin(-1 + 2·i/(count-1))` and
`azimuth = ((i+1)·π·(3 − √5)) mod 2π` at view index `i`. -/
theorem claim_C4_equidistant_camera_angles (c : ℕ) (hc : 2 ≤ c) :
    ∃ l, camAngles c = .ok l ∧ l.length = c ∧ l.Nodup ∧
      (∀ p ∈ l, (0 ≤ p.1 ∧ p.1 < 2 * Real.pi) ∧
        (-(Real.pi / 2) ≤ p.2 ∧ p.2 ≤ Real.pi / 2)) ∧
      ∀ i, i < c → l.getD i (0, 0) =
        (realMod (((i : ℝ) + 1) * (Real.pi * (3 - Real.sqrt 5))) (2 * Real.pi),
         Real.arcsin (-1 + 2 * (i : ℝ) / ((c : ℝ) - 1))) := by
  refine ⟨(List.range c).map (anglePair c), camAngles_ok c hc, by simp, ?_, ?_, ?_⟩
  · refine (List.nodup_range c).map_on ?_
    intro i hi j hj hij
    exact anglePair_inj c hc i j (List.mem_range.mp hi) (List.mem_range.mp hj) hij
  · intro p hp
    obtain ⟨i, hi, rfl⟩ := List.mem_map.mp hp
    refine ⟨realMod_mem_Ico _ _ Real.two_pi_pos, ?_, ?_⟩
    · exact Real.neg_pi_div_two_le_arcsin _
    · exact Real.arcsin_le_pi_div_two _
  · intro i hi
    rw [List.getD_eq_getElem _ _ (by simpa using hi), List.getElem_map,
      List.getElem_range]
    rfl

/-- Closed witness for C4 at `count = 2`. -/
theorem claim_C4_witness :
    ∃ l, camAngles 2 = .ok l ∧ l.length = 2 ∧ l.Nodup ∧
      (∀ p ∈ l, (0 ≤ p.1 ∧ p.1 < 2 * Real.pi) ∧
        (-(Real.pi / 2) ≤ p.2 ∧ p.2 ≤ Real.pi / 2)) ∧
      ∀ i, i < 2 → l.getD i (0, 0) =
        (realMod (((i : ℝ) + 1) * (Real.pi * (3 - Real.sqrt 5))) (2 * Real.pi),
         Real.arcsin (-1 + 2 * (i : ℝ) / ((2 : ℝ) - 1))) := by
  have h := claim_C4_equidistant_camera_angles 2 (le_refl 2)
  simpa using h

/-- C7: scan count 1 hits the division by zero in the elevation formula (the
spec's `InvalidInput`, a Python `ZeroDivisionError`), and any scan count
below 2 makes `create_from_scans` raise rather than silently produce a
cloud (count 0 fails in `np.concatenate` over an empty scan list). -/
theorem claim_C7_scan_count_lt_two (scanPrim : ℝ → ℝ → Scan) :
    camAngles 1 = .error .zeroDivisionError ∧
      ∀ c, c < 2 → ∀ cn : Bool, ∃ e, createFromScans scanPrim c cn = .error e := by
  have h1 : camAngles 1 = .error .zeroDivisionError := by
    rw [camAngles, show List.range 1 = [0] from rfl]
    simp [exceptMapList, camAngle]
  refine ⟨h1, ?_⟩
  intro c hc cn
  match c, hc with
  | 0, _ =>
    exact ⟨.valueError, rfl⟩
  | 1, _ =>
    refine ⟨.zeroDivisionError, ?_⟩
    unfold createFromScans
    rw [h1]

/-- Closed witness for C7 with a concrete scan primitive. -/
theorem claim_C7_witness :
    ∃ e, createFromScans (fun _ _ => ⟨[⟨0, 0, 0⟩], [⟨0, 0, 1⟩], fun _ => true⟩) 1 true =
      .error e :=
  (claim_C7_scan_count_lt_two (fun _ _ => ⟨[⟨0, 0, 0⟩], [⟨0, 0, 1⟩], fun _ => true⟩)).2
    1 (by norm_num) true

/-- C9: for scan count `C ≥ 2`, the cloud built by `create_from_scans` holds
exactly `C` scan records, its points are the concatenation of the scans'
points in scan order, and when normals are requested its normals are the
concatenation of the scans' normals in the same order, index-aligned with
the points (`len(normals) == len(points)`). -/
theorem claim_C9_scan_concatenation (scanPrim : ℝ → ℝ → Scan) (c : ℕ) (cn : Bool)
    (hc : 2 ≤ c)
    (hne : ∀ a b : ℝ, (scanPrim a b).points ≠ [])
    (hlen : ∀ a b : ℝ, (scanPrim a b).normals.length = (scanPrim a b).points.length) :
    ∃ spc l, createFromScans scanPrim c cn = .ok spc ∧
      spc.scans = some l ∧ l.length = c ∧
      spc.points = (l.map Scan.points).flatten ∧
      (cn = true → spc.normals = some ((l.map Scan.normals).flatten) ∧
        ((l.map Scan.normals).flatten).length = spc.points.length) := by
  unfold createFromScans
  rw [camAngles_ok c hc]
  dsimp only
  have hLlen : (List.map (fun a => scanPrim a.1 a.2)
      (List.map (anglePair c) (List.range c))).length = c := by simp
  have hLne : List.map (fun a => scanPrim a.1 a.2)
      (List.map (anglePair c) (List.range c)) ≠ [] := by
    intro h
    rw [h] at hLlen
    simp at hLlen
    omega
  have hLmem : ∀ s ∈ List.map (fun a => scanPrim a.1 a.2)
      (List.map (anglePair c) (List.range c)), (∃ a b, s = scanPrim a b) := by
    intro s hs
    obtain ⟨a, _, rfl⟩ := List.mem_map.mp hs
    exact ⟨a.1, a.2, rfl⟩
  obtain ⟨s, rest, hcons⟩ := List.exists_cons_of_ne_nil hLne
  rw [hcons]
  dsimp only
  have hsne : s.points ≠ [] := by
    obtain ⟨a, b, rfl⟩ := hLmem s (hcons ▸ List.mem_cons_self s rest)
    exact hne a b
  have hptsne : (((s :: rest).map Scan.points).flatten) ≠ [] := by
    simp only [List.map_cons, List.flatten_cons]
    intro h
    exact hsne (List.append_eq_nil.mp h).1
  unfold mkSurfacePointCloud
  rw [if_neg hptsne]
  refine ⟨_, s :: rest, rfl, rfl, by rw [← hcons, hLlen], rfl, ?_⟩
  intro hcn
  subst hcn
  refine ⟨by simp, ?_⟩
  rw [List.length_flatten, List.length_flatten, List.map_map, List.map_map]
  congr 1
  apply List.map_congr_left
  intro t ht
  obtain ⟨a, b, rfl⟩ := hLmem t (hcons ▸ ht)
  exact hlen a b

/-- Closed witness for C9 with a concrete scan primitive at `C = 2`. -/
theorem claim_C9_witness :
    ∃ spc l,
      createFromScans (fun _ _ => ⟨[⟨0, 0, 0⟩], [⟨0, 0, 1⟩], fun _ => true⟩) 2 true = .ok spc ∧
      spc.scans = some l ∧ l.length = 2 ∧
      spc.points = (l.map Scan.points).flatten ∧
      (true = true → spc.normals = some ((l.map Scan.normals).flatten) ∧
        ((l.map Scan.normals).flatten).length = spc.points.length) :=
  claim_C9_scan_concatenation (fun _ _ => ⟨[⟨0, 0, 0⟩], [⟨0, 0, 1⟩], fun _ => true⟩) 2 true
    (le_refl 2) (fun _ _ => by simp) (fun _ _ => by simp)


lemma sandwich_getD {α : Type _} (d a : α) (M : List α) (i : ℕ) :
    (a :: (M ++ [a])).getD i d =
      if i = 0 then a
      else if i = M.length + 1 then a
      else M.getD (i - 1) d := by
  cases i with
  | zero => simp
  | succ n =>
    rw [List.getD_cons_succ]
    rw [if_neg (Nat.succ_ne_zero n)]
    by_cases hn : n < M.length
    · rw [List.getD_append _ _ _ _ hn, if_neg (by omega)]
      simp
    · have hge : M.length ≤ n := Nat.le_of_not_lt hn
      rw [List.getD_append_right _ _ _ _ hge]
      by_cases he : n = M.length
      · subst he
        rw [if_pos rfl]
        simp
      · have hlt : M.length < n := lt_of_le_of_ne hge (Ne.symm he)
        rw [if_neg (by omega)]
        have h1 : n - M.length = (n - M.length - 1) + 1 := by omega
        rw [h1, List.getD_cons_succ, List.getD_nil,
          List.getD_eq_default _ _ (by omega)]

lemma getD_replicate_lt {α : Type _} (a d : α) (n m : ℕ) (h : m < n) :
    (List.replicate n a).getD m d = a := by
  rw [List.getD_eq_getElem _ _ (by simpa using h)]
  exact List.getElem_replicate ..

lemma getD_map_lt {α β : Type _} (f : α → β) (l : List α) (da : α) (db : β)
    (i : ℕ) (h : i < l.length) : (l.map f).getD i db = f (l.getD i da) := by
  rw [List.getD_eq_getElem _ _ (by simpa using h), List.getElem_map,
    List.getD_eq_getElem _ _ h]

lemma getD_mem_of_lt {α : Type _} (l : List α) (d : α) (i : ℕ) (h : i < l.length) :
    l.getD i d ∈ l := by
  rw [List.getD_eq_getElem _ _ h]
  exact l.getElem_mem h

lemma onesPlane_getD (n j k : ℕ) (hj : j < n) (hk : k < n) :
    ((onesPlane n).getD j []).getD k (0 : ℝ) = 1 := by
  unfold onesPlane
  rw [getD_replicate_lt _ _ _ _ hj]
  unfold onesRow
  rw [getD_replicate_lt _ _ _ _ hk]

lemma IsCube_reshape3 (R : ℕ) (s : List ℝ) : IsCube R (reshape3 R s) := by
  refine ⟨by simp [reshape3], ?_⟩
  intro p hp
  unfold reshape3 at hp
  obtain ⟨i, _, rfl⟩ := List.mem_map.mp hp
  refine ⟨by simp, ?_⟩
  intro r hr
  obtain ⟨j, _, rfl⟩ := List.mem_map.mp hr
  simp

lemma IsCube_pad3 (R : ℕ) (V : List (List (List ℝ))) (hV : IsCube R V) :
    IsCube (R + 2) (pad3 R V) := by
  obtain ⟨hlen, hmem⟩ := hV
  refine ⟨by simp [pad3, hlen], ?_⟩
  intro p hp
  unfold pad3 at hp
  rcases List.mem_cons.mp hp with hp | hp
  · subst hp
    refine ⟨by simp [onesPlane], ?_⟩
    intro r hr
    unfold onesPlane at hr
    rw [List.eq_of_mem_replicate hr]
    simp [onesRow]
  · rcases List.mem_append.mp hp with hp | hp
    · obtain ⟨p0, hp0, rfl⟩ := List.mem_map.mp hp
      obtain ⟨hp0len, hp0row⟩ := hmem p0 hp0
      refine ⟨by simp [padPlane, hp0len], ?_⟩
      intro r hr
      unfold padPlane at hr
      rcases List.mem_cons.mp hr with hr | hr
      · subst hr; simp [onesRow]
      · rcases List.mem_append.mp hr with hr | hr
        · obtain ⟨r0, hr0, rfl⟩ := List.mem_map.mp hr
          simp [padRow, (hp0row r0 hr0)]
        · rw [List.mem_singleton.mp hr]
          simp [onesRow]
    · rw [List.mem_singleton.mp hp]
      refine ⟨by simp [onesPlane], ?_⟩
      intro r hr
      unfold onesPlane at hr
      rw [List.eq_of_mem_replicate hr]
      simp [onesRow]

lemma pad3_idx (R : ℕ) (V : List (List (List ℝ))) (hV : IsCube R V)
    (i j k : ℕ) (hi : i < R + 2) (hj : j < R + 2) (hk : k < R + 2) :
    idx3 (pad3 R V) i j k =
      if i = 0 ∨ i = R + 1 ∨ j = 0 ∨ j = R + 1 ∨ k = 0 ∨ k = R + 1 then 1
      else idx3 V (i - 1) (j - 1) (k - 1) := by
  obtain ⟨hlen, hmem⟩ := hV
  unfold idx3 pad3
  rw [sandwich_getD]
  rw [show (V.map (padPlane R)).length = R by simp [hlen]]
  by_cases hi0 : i = 0
  · rw [if_pos hi0]
    rw [if_pos (Or.inl hi0), onesPlane_getD _ _ _ hj hk]
  · rw [if_neg hi0]
    by_cases hiR : i = R + 1
    · rw [if_pos hiR]
      rw [if_pos (Or.inr (Or.inl hiR)), onesPlane_getD _ _ _ hj hk]
    · rw [if_neg hiR]
      have hi1 : i - 1 < V.length := by omega
      rw [getD_map_lt (padPlane R) V [] [] (i - 1) hi1]
      obtain ⟨hplen, hprow⟩ := hmem (V.getD (i - 1) []) (getD_mem_of_lt V [] (i - 1) hi1)
      unfold padPlane
      rw [sandwich_getD]
      rw [show ((V.getD (i - 1) []).map padRow).length = R by rw [List.length_map]; exact hplen]
      by_cases hj0 : j = 0
      · rw [if_pos hj0, if_pos (by tauto)]
        unfold onesRow
        rw [getD_replicate_lt _ _ _ _ hk]
      · rw [if_neg hj0]
        by_cases hjR : j = R + 1
        · rw [if_pos hjR, if_pos (by tauto)]
          unfold onesRow
          rw [getD_replicate_lt _ _ _ _ hk]
        · rw [if_neg hjR]
          have hj1 : j - 1 < (V.getD (i - 1) []).length := by omega
          rw [getD_map_lt padRow _ [] [] (j - 1) hj1]
          have hrowlen : ((V.getD (i - 1) []).getD (j - 1) []).length = R :=
            hprow _ (getD_mem_of_lt _ [] (j - 1) hj1)
          unfold padRow
          rw [sandwich_getD, hrowlen]
          by_cases hk0 : k = 0
          · rw [if_pos hk0, if_pos (by tauto)]
          · rw [if_neg hk0]
            by_cases hkR : k = R + 1
            · rw [if_pos hkR, if_pos (by tauto)]
            · rw [if_neg hkR, if_neg (by tauto)]

lemma getSdfInBatches_ok_of_normals (spc : SurfacePointCloud) (ns : List Point3)
    (qs : List Point3) (k B : ℕ) (hns : spc.normals = some ns)
    (hk1 : 1 ≤ k) (hk2 : k ≤ spc.points.length) (hB : 1 ≤ B) :
    getSdfInBatches spc qs false k B =
      .ok (qs.map (fun q => normalVoteSdf spc.points ns q k)) := by
  rw [getSdfInBatches_eq_getSdf spc qs false k B hB]
  unfold getSdf
  rw [hns]
  simp [hk1, hk2]

/-- C5: `get_voxels(R)` without padding returns an `(R,R,R)` volume; with
padding it returns `(R+2,R+2,R+2)`, where the entire outer one-voxel shell
is the constant `+1` and the interior `(R,R,R)` block equals the unpadded
volume. -/
theorem claim_C5_voxel_shapes (spc : SurfacePointCloud) (R : ℕ) (u : Bool)
    (k : ℕ) (cv : List (List (List ℝ)) → Bool) (sdf : List ℝ) (_hR : 1 ≤ R)
    (hok : getSdfInBatches spc (rasterPoints R) u k 1000000 = .ok sdf) :
    ∃ V W, getVoxels spc R u k false false cv = .ok V ∧
      getVoxels spc R u k true false cv = .ok W ∧
      IsCube R V ∧ IsCube (R + 2) W ∧
      (∀ i j k3, i < R + 2 → j < R + 2 → k3 < R + 2 →
        (i = 0 ∨ i = R + 1 ∨ j = 0 ∨ j = R + 1 ∨ k3 = 0 ∨ k3 = R + 1) →
        idx3 W i j k3 = 1) ∧
      (∀ i j k3, i < R → j < R → k3 < R →
        idx3 W (i + 1) (j + 1) (k3 + 1) = idx3 V i j k3) := by
  have hcube := IsCube_reshape3 R sdf
  refine ⟨reshape3 R sdf, pad3 R (reshape3 R sdf), ?_, ?_, hcube,
    IsCube_pad3 R _ hcube, ?_, ?_⟩
  · unfold getVoxels
    rw [hok]
    simp
  · unfold getVoxels
    rw [hok]
    simp
  · intro i j k3 hi hj hk3 hshell
    rw [pad3_idx R _ hcube i j k3 hi hj hk3, if_pos hshell]
  · intro i j k3 hi hj hk3
    rw [pad3_idx R _ hcube (i + 1) (j + 1) (k3 + 1) (by omega) (by omega) (by omega),
      if_neg (by omega)]
    simp

/-- C6: when `check_result=True` and the `check_voxels` heuristic rejects the
computed volume, `get_voxels` raises `BadMeshException` and returns no volume
at all — for either value of `pad`, since validation is decided on the
unpadded volume before any padding is applied. -/
theorem claim_C6_bad_mesh_exception (spc : SurfacePointCloud) (R : ℕ) (u : Bool)
    (k : ℕ) (cv : List (List (List ℝ)) → Bool) (sdf : List ℝ) (pad : Bool)
    (hok : getSdfInBatches spc (rasterPoints R) u k 1000000 = .ok sdf)
    (hbad : cv (reshape3 R sdf) = false) :
    getVoxels spc R u k pad true cv = .error .badMeshException := by
  unfold getVoxels
  rw [hok]
  simp [hbad]

/-- Closed witness for C5 on a one-point cloud at resolution 1. -/
theorem claim_C5_witness :
    ∃ V W,
      getVoxels ⟨[⟨0, 0, 0⟩], some [⟨0, 0, 1⟩], none⟩ 1 false 1 false false
          (fun _ => true) = .ok V ∧
      getVoxels ⟨[⟨0, 0, 0⟩], some [⟨0, 0, 1⟩], none⟩ 1 false 1 true false
          (fun _ => true) = .ok W ∧
      IsCube 1 V ∧ IsCube (1 + 2) W ∧
      (∀ i j k3, i < 1 + 2 → j < 1 + 2 → k3 < 1 + 2 →
        (i = 0 ∨ i = 1 + 1 ∨ j = 0 ∨ j = 1 + 1 ∨ k3 = 0 ∨ k3 = 1 + 1) →
        idx3 W i j k3 = 1) ∧
      (∀ i j k3, i < 1 → j < 1 → k3 < 1 →
        idx3 W (i + 1) (j + 1) (k3 + 1) = idx3 V i j k3) :=
  claim_C5_voxel_shapes ⟨[⟨0, 0, 0⟩], some [⟨0, 0, 1⟩], none⟩ 1 false 1
    (fun _ => true) _ (le_refl 1)
    (getSdfInBatches_ok_of_normals ⟨[⟨0, 0, 0⟩], some [⟨0, 0, 1⟩], none⟩
      [⟨0, 0, 1⟩] (rasterPoints 1) 1 1000000 rfl (by decide) (by decide)
      (by norm_num))

/-- Closed witness for C6 with an always-rejecting heuristic. -/
theorem claim_C6_witness :
    getVoxels ⟨[⟨0, 0, 0⟩], some [⟨0, 0, 1⟩], none⟩ 1 false 1 true true
        (fun _ => false) = .error .badMeshException :=
  claim_C6_bad_mesh_exception ⟨[⟨0, 0, 0⟩], some [⟨0, 0, 1⟩], none⟩ 1 false 1
    (fun _ => false) _ true
    (getSdfInBatches_ok_of_normals ⟨[⟨0, 0, 0⟩], some [⟨0, 0, 1⟩], none⟩
      [⟨0, 0, 1⟩] (rasterPoints 1) 1 1000000 rfl (by decide) (by decide)
      (by norm_num))
    rfl
